import Mathlib

/-!
Verification of the tree-structural diff engine of `ui-diff-reviewer`
(`src/ai-eval.ts`): `extractStructuralDifferences`, `generateDiffSummary`
and `extractDiff`, together with the change-record and diff-result shapes
from `src/types.ts`.

The DOM trees consumed by the engine are produced by an external HTML
parser (JSDOM); the engine only reads `nodeType`, `nodeName`,
`textContent`, `attributes` and `childNodes` of each node, so a DOM node
is embedded as an inductive tree carrying exactly those observations.
JavaScript string operations used by the engine (`trim`,
`substring(0, 50)`, template literals, `Map` construction from an
attribute array) are embedded as executable Lean functions on `String`
and association lists.
-/

namespace UIDiff

/-- The `SimpleDiff` record interface of `src/ai-eval.ts` (one change
record): `action` is required, all other fields are optional and `none`
when the emitting site does not set them. -/
structure SimpleDiff where
  action : String
  element : Option String := none
  content : Option String := none
  oldValue : Option String := none
  newValue : Option String := none
  path : Option String := none
deriving Repr, DecidableEq

mutual
/-- A parsed DOM node as observed by the diff engine: an element (tag,
attribute array in document order, child list), a text node (character
data), or any other node kind (`other c name data` carries the DOM
`nodeType` code `c`, e.g. 8 for comments, the `nodeName`, and the node's
own text content). Real DOM nodes that are neither elements nor text have
codes outside {1, 3}. -/
inductive DomNode where
  | element (tag : String) (attrs : List (String × String)) (children : NodeList)
  | text (data : String)
  | other (typeCode : Nat) (name : String) (data : String)
/-- A list of sibling DOM nodes (`childNodes`). -/
inductive NodeList where
  | nil
  | cons (head : DomNode) (tail : NodeList)
end

/-- DOM `node.nodeType`: 1 for elements, 3 for text nodes. -/
def DomNode.nodeType : DomNode → Nat
  | .element _ _ _ => 1
  | .text _ => 3
  | .other c _ _ => c

/-- DOM `node.nodeName`: the (uppercase-normalized) tag for elements,
the literal `#text` for text nodes. -/
def DomNode.nodeName : DomNode → String
  | .element tag _ _ => tag
  | .text _ => "#text"
  | .other _ n _ => n

mutual
/-- DOM `node.textContent`: for an element, the concatenated text of its
children, skipping comment and processing-instruction children (codes 8
and 7) as the DOM specifies; for text and other nodes, their own data. -/
def DomNode.textContent : DomNode → String
  | .element _ _ cs => NodeList.textContent cs
  | .text s => s
  | .other _ _ s => s
termination_by structural n => n
/-- Concatenated `textContent` of a sibling list. -/
def NodeList.textContent : NodeList → String
  | .nil => ""
  | .cons c rest =>
      (if c.nodeType = 8 ∨ c.nodeType = 7 then "" else c.textContent) ++ NodeList.textContent rest
termination_by structural l => l
end

/-- Number of nodes in a sibling list (`childNodes.length`). -/
def NodeList.length : NodeList → Nat
  | .nil => 0
  | .cons _ rest => 1 + NodeList.length rest

/-- JavaScript `String.prototype.trim`: strip leading and trailing
whitespace characters. -/
def jsTrim (s : String) : String :=
  String.mk (((s.data.dropWhile Char.isWhitespace).reverse.dropWhile Char.isWhitespace).reverse)

/-- JavaScript `String.prototype.substring(0, n)`: the first `n`
characters of a string. -/
def jsTake (n : Nat) (s : String) : String :=
  String.mk (s.data.take n)

/-- One step of JavaScript `Map` construction (`map.set(k, v)`): an
existing key keeps its position and gets the new value, a fresh key is
appended. -/
def mapSet (m : List (String × String)) (k v : String) : List (String × String) :=
  if m.any (fun p => p.1 == k) then
    m.map (fun p => if p.1 == k then (p.1, v) else p)
  else m ++ [(k, v)]

/-- JavaScript `new Map(pairs)` over an attribute array: an association
list with distinct keys, in first-insertion order. -/
def toMap (l : List (String × String)) : List (String × String) :=
  l.foldl (fun m p => mapSet m p.1 p.2) []

/-- The first attribute loop of `extractStructuralDifferences`: walk the
B-side attribute map; a name absent from the A-side map emits
`addAttribute`, a name present with a different value emits
`modifyAttribute`. -/
def attrAddModifyDiffs (tag path : String) (m1 : List (String × String)) :
    List (String × String) → List SimpleDiff
  | [] => []
  | (name, value) :: rest =>
    (match m1.lookup name with
     | none =>
        [{ action := "addAttribute", element := some tag, path := some path,
           content := some (name ++ "=\"" ++ value ++ "\"") }]
     | some v1 =>
        if v1 ≠ value then
          [{ action := "modifyAttribute", element := some tag, path := some path,
             oldValue := some (name ++ "=\"" ++ v1 ++ "\""),
             newValue := some (name ++ "=\"" ++ value ++ "\"") }]
        else []) ++ attrAddModifyDiffs tag path m1 rest

/-- The second attribute loop of `extractStructuralDifferences`: walk the
A-side attribute map; a name absent from the B-side map emits
`removeAttribute`. -/
def attrRemoveDiffs (tag path : String) (m2 : List (String × String)) :
    List (String × String) → List SimpleDiff
  | [] => []
  | (name, value) :: rest =>
    (if (m2.lookup name).isSome then []
     else
       [{ action := "removeAttribute", element := some tag, path := some path,
          content := some (name ++ "=\"" ++ value ++ "\"") }]) ++ attrRemoveDiffs tag path m2 rest

/-- Tail of the child loop once tree A's children are exhausted: each
remaining B child at slot `i` emits `addElement` with the parent path
extended by `/TAG[i]` and a 50-character text preview. -/
def addedDiffs (tag path : String) (l2 : NodeList) (i : Nat) : List SimpleDiff :=
  match l2 with
  | .nil => []
  | .cons c2 rest2 =>
      { action := "addElement", element := some c2.nodeName,
        path := some (path ++ "/" ++ tag ++ "[" ++ toString i ++ "]"),
        content := some (jsTake 50 c2.textContent) }
        :: addedDiffs tag path rest2 (i + 1)

/-- Tail of the child loop once tree B's children are exhausted: each
remaining A child at slot `i` emits `removeElement`. -/
def removedDiffs (tag path : String) (l1 : NodeList) (i : Nat) : List SimpleDiff :=
  match l1 with
  | .nil => []
  | .cons c1 rest1 =>
      { action := "removeElement", element := some c1.nodeName,
        path := some (path ++ "/" ++ tag ++ "[" ++ toString i ++ "]"),
        content := some (jsTake 50 c1.textContent) }
        :: removedDiffs tag path rest1 (i + 1)

mutual
/-- `extractStructuralDifferences(node1, node2, path)` of
`src/ai-eval.ts`: node-type mismatch emits one `replaceNode` record and
stops; two text nodes compare trimmed text and emit `modifyTextElement`
only when both trimmed strings are non-empty and differ; two elements
compare tag (mismatch emits one `replaceElement` record and stops), then
attributes, then children positionally. -/
def extractStructuralDifferences (node1 node2 : DomNode) (path : String) : List SimpleDiff :=
  if node1.nodeType ≠ node2.nodeType then
    [{ action := "replaceNode", path := some path,
       oldValue := some node1.nodeName, newValue := some node2.nodeName }]
  else if node1.nodeType = 3 then
    let text1 := jsTrim node1.textContent
    let text2 := jsTrim node2.textContent
    if text1 ≠ text2 ∧ text1 ≠ "" ∧ text2 ≠ "" then
      [{ action := "modifyTextElement", path := some path,
         oldValue := some text1, newValue := some text2 }]
    else []
  else
    match node1, node2 with
    | .element tag1 attrs1 cs1, .element tag2 attrs2 cs2 =>
      if tag1 ≠ tag2 then
        [{ action := "replaceElement", path := some path,
           oldValue := some tag1, newValue := some tag2 }]
      else
        attrAddModifyDiffs tag1 path (toMap attrs1) (toMap attrs2)
          ++ attrRemoveDiffs tag1 path (toMap attrs2) (toMap attrs1)
          ++ childDiffs tag1 path cs1 cs2 0
    | _, _ => []
termination_by structural node1
/-- The child loop of `extractStructuralDifferences`: for slot `i` from 0
to `max(children1.length, children2.length)`, a child present only in B
emits `addElement`, a child present only in A emits `removeElement`, and
a pair present in both is compared recursively at path `path/TAG[i]`. -/
def childDiffs (tag path : String) (l1 l2 : NodeList) (i : Nat) : List SimpleDiff :=
  match l1, l2, i with
  | .nil, l2, i => addedDiffs tag path l2 i
  | .cons c1 rest1, .nil, i => removedDiffs tag path (.cons c1 rest1) i
  | .cons c1 rest1, .cons c2 rest2, i =>
      extractStructuralDifferences c1 c2 (path ++ "/" ++ tag ++ "[" ++ toString i ++ "]")
        ++ childDiffs tag path rest1 rest2 (i + 1)
termination_by structural l1
end

/-- JavaScript template-literal interpolation of an optional field: an
unset field renders as the string `undefined`. -/
def optStr : Option String → String
  | some s => s
  | none => "undefined"

/-- One arm of the `switch` in `generateDiffSummary`: the fixed rendering
template for a single change record, with the `? Unknown action` fallback
as the default arm. -/
def renderDiffLine (diff : SimpleDiff) : String :=
  if diff.action = "addElement" then
    "+ Added: <" ++ optStr diff.element ++ ">"
      ++ (match diff.content with
          | some c => if c ≠ "" then ": \"" ++ c ++ "\"" else ""
          | none => "")
      ++ " at " ++ optStr diff.path
  else if diff.action = "removeElement" then
    "- Removed: <" ++ optStr diff.element ++ ">"
      ++ (match diff.content with
          | some c => if c ≠ "" then ": \"" ++ c ++ "\"" else ""
          | none => "")
      ++ " at " ++ optStr diff.path
  else if diff.action = "modifyTextElement" then
    "~ Modified text: \"" ++ optStr diff.oldValue ++ "\" → \"" ++ optStr diff.newValue ++ "\""
  else if diff.action = "addAttribute" then
    "+ Added attribute on <" ++ optStr diff.element ++ ">: " ++ optStr diff.content
  else if diff.action = "removeAttribute" then
    "- Removed attribute on <" ++ optStr diff.element ++ ">: " ++ optStr diff.content
  else if diff.action = "modifyAttribute" then
    "~ Modified attribute on <" ++ optStr diff.element ++ ">: "
      ++ optStr diff.oldValue ++ " → " ++ optStr diff.newValue
  else if diff.action = "replaceElement" then
    "↔ Replaced <" ++ optStr diff.oldValue ++ "> with <" ++ optStr diff.newValue ++ ">"
      ++ " at " ++ optStr diff.path
  else if diff.action = "replaceNode" then
    "↔ Replaced node " ++ optStr diff.oldValue ++ " with " ++ optStr diff.newValue
      ++ " at " ++ optStr diff.path
  else
    "? Unknown action: " ++ diff.action

/-- `generateDiffSummary` of `src/ai-eval.ts`: one rendered line per
record, joined with newlines. -/
def generateDiffSummary (diffs : List SimpleDiff) : String :=
  String.intercalate "\n" (diffs.map renderDiffLine)

/-- The `DiffResult` interface of `src/types.ts`. -/
structure DiffResult where
  diffs : List SimpleDiff
  count : Nat
  summary : String
deriving Repr, DecidableEq

/-- `extractDiff` of `src/ai-eval.ts`, taking the two already-parsed
`document.body` roots (parsing the raw HTML strings with JSDOM is the
external collaborator, outside the engine): run the structural
comparison from the empty path, and package records, count and rendered
summary. -/
def extractDiff (body1 body2 : DomNode) : DiffResult :=
  let diffs := extractStructuralDifferences body1 body2 ""
  { diffs := diffs, count := diffs.length, summary := generateDiffSummary diffs }

/-- Build a sibling list from a Lean list literal. -/
def nodes : List DomNode → NodeList
  | [] => .nil
  | c :: rest => .cons c (nodes rest)

/-- The eight action values recognized by the summary renderer. -/
def knownActions : List String :=
  ["addElement", "removeElement", "modifyTextElement", "addAttribute",
   "removeAttribute", "modifyAttribute", "replaceElement", "replaceNode"]

/-- The slot paths below one parent for one remaining sibling list
starting at slot `i`: each is the parent path extended with `/TAG[i]`,
`TAG` being the tree-A parent's tag and `i` the 0-based slot index. -/
def slotPaths (tag path : String) (l : NodeList) (i : Nat) : List String :=
  match l with
  | .nil => []
  | .cons _ rest =>
      (path ++ "/" ++ tag ++ "[" ++ toString i ++ "]") :: slotPaths tag path rest (i + 1)

mutual
/-- All well-formed record paths for a comparison of `node1` against
`node2` rooted at `path`: the root path itself, and below a pair of
elements, paths that extend the root path level by level with segments
`/TAG[i]`, where `TAG` is the tree-A parent's tag and `i` is the 0-based
slot index of the traversed child among that parent's children. -/
def pathsOf (node1 node2 : DomNode) (path : String) : List String :=
  match node1, node2 with
  | .element tag _ cs1, .element _ _ cs2 => path :: pathsBelow tag path cs1 cs2 0
  | _, _ => [path]
termination_by structural node1
/-- Well-formed record paths contributed by the child slots of one
element pair, starting at slot `i`. -/
def pathsBelow (tag path : String) (l1 l2 : NodeList) (i : Nat) : List String :=
  match l1, l2, i with
  | .nil, l2, i => slotPaths tag path l2 i
  | .cons c1 rest1, .nil, i => slotPaths tag path (.cons c1 rest1) i
  | .cons c1 rest1, .cons c2 rest2, i =>
      pathsOf c1 c2 (path ++ "/" ++ tag ++ "[" ++ toString i ++ "]")
        ++ pathsBelow tag path rest1 rest2 (i + 1)
termination_by structural l1
end

/-! Concrete parsed trees used by the example-based claims. JSDOM wraps
each HTML fragment in `<html><head></head><body>…</body></html>`; the
engine compares the two `body` elements. -/

/-- `document.body` of `<ul><li>X</li><li>Y</li></ul>`. -/
def listBodyA : DomNode :=
  .element "BODY" []
    (nodes [.element "UL" []
      (nodes [.element "LI" [] (nodes [.text "X"]),
              .element "LI" [] (nodes [.text "Y"])])])

/-- `document.body` of `<ul><li>NEW</li><li>X</li><li>Y</li></ul>`. -/
def listBodyB : DomNode :=
  .element "BODY" []
    (nodes [.element "UL" []
      (nodes [.element "LI" [] (nodes [.text "NEW"]),
              .element "LI" [] (nodes [.text "X"]),
              .element "LI" [] (nodes [.text "Y"])])])

/-- `document.body` of `<body><h1>Title</h1></body>`. -/
def titleBodyA : DomNode :=
  .element "BODY" [] (nodes [.element "H1" [] (nodes [.text "Title"])])

/-- `document.body` of `<body><h1>Title</h1><p>New paragraph</p></body>`. -/
def titleBodyB : DomNode :=
  .element "BODY" []
    (nodes [.element "H1" [] (nodes [.text "Title"]),
            .element "P" [] (nodes [.text "New paragraph"])])

/-- `document.body` of `<p>a</p>`. -/
def paraBodyA : DomNode :=
  .element "BODY" [] (nodes [.element "P" [] (nodes [.text "a"])])

/-- `document.body` of `<p>b</p>`. -/
def paraBodyB : DomNode :=
  .element "BODY" [] (nodes [.element "P" [] (nodes [.text "b"])])

/-- The element `<a href="/x">`. -/
def anchorPlain : DomNode := .element "A" [("href", "/x")] .nil

/-- The element `<a href="/x" target="_blank">`. -/
def anchorTarget : DomNode := .element "A" [("href", "/x"), ("target", "_blank")] .nil

/-! Helper lemmas about the JavaScript map embedding. -/

theorem fst_mapSet_update (k v : String) (x : String × String) :
    (if x.1 == k then (x.1, v) else x).1 = x.1 := by
  split <;> rfl

theorem mapSet_pairwise (m : List (String × String)) (k v : String)
    (h : m.Pairwise (fun a b => a.1 ≠ b.1)) :
    (mapSet m k v).Pairwise (fun a b => a.1 ≠ b.1) := by
  unfold mapSet
  split
  · exact List.Pairwise.map _
      (fun a b hab => by simpa only [fst_mapSet_update] using hab) h
  · rename_i hany
    rw [List.pairwise_append]
    refine ⟨h, List.pairwise_singleton _ _, ?_⟩
    intro a ha b hb
    simp only [List.mem_singleton] at hb
    subst hb
    intro hak
    exact hany (List.any_eq_true.mpr ⟨a, ha, by simp [hak]⟩)

theorem toMap_fold_pairwise :
    ∀ (l acc : List (String × String)), acc.Pairwise (fun a b => a.1 ≠ b.1) →
      (l.foldl (fun m p => mapSet m p.1 p.2) acc).Pairwise (fun a b => a.1 ≠ b.1)
  | [], _, h => h
  | _ :: rest, acc, h => toMap_fold_pairwise rest _ (mapSet_pairwise _ _ _ h)

theorem toMap_pairwise (l : List (String × String)) :
    (toMap l).Pairwise (fun a b => a.1 ≠ b.1) :=
  toMap_fold_pairwise l [] (List.Pairwise.nil)

theorem lookup_eq_of_mem_pairwise :
    ∀ (m : List (String × String)), m.Pairwise (fun a b => a.1 ≠ b.1) →
      ∀ kv ∈ m, m.lookup kv.1 = some kv.2 := by
  intro m
  induction m with
  | nil => intro _ kv hkv; cases hkv
  | cons hd tl ih =>
      intro hp kv hkv
      rw [List.pairwise_cons] at hp
      rcases List.mem_cons.mp hkv with h | h
      · subst h
        simp [List.lookup]
      · have hne : hd.1 ≠ kv.1 := hp.1 kv h
        have : (kv.1 == hd.1) = false := by
          rw [beq_eq_false_iff_ne]
          exact fun he => hne he.symm
        simp only [List.lookup, this]
        exact ih hp.2 kv h

theorem lookup_isSome_of_mem :
    ∀ (m : List (String × String)), ∀ kv ∈ m, (m.lookup kv.1).isSome = true := by
  intro m
  induction m with
  | nil => intro kv hkv; cases hkv
  | cons hd tl ih =>
      intro kv hkv
      rcases List.mem_cons.mp hkv with h | h
      · subst h
        simp [List.lookup]
      · rcases hbeq : (kv.1 == hd.1) with _ | _
        · simp only [List.lookup, hbeq]
          exact ih kv h
        · simp [List.lookup, hbeq]

/-! Identity: a tree compared against itself produces no records. -/

theorem attrAddModifyDiffs_eq_nil (tag p : String) (m1 : List (String × String)) :
    ∀ m2, (∀ kv ∈ m2, m1.lookup kv.1 = some kv.2) → attrAddModifyDiffs tag p m1 m2 = []
  | [], _ => rfl
  | (k, v) :: rest, h => by
      have hk := h (k, v) (List.mem_cons_self _ _)
      have hrest := attrAddModifyDiffs_eq_nil tag p m1 rest
        (fun kv hkv => h kv (List.mem_cons_of_mem _ hkv))
      simp [attrAddModifyDiffs, hk, hrest]

theorem attrRemoveDiffs_eq_nil (tag p : String) (m2 : List (String × String)) :
    ∀ m1, (∀ kv ∈ m1, (m2.lookup kv.1).isSome = true) → attrRemoveDiffs tag p m2 m1 = []
  | [], _ => rfl
  | (k, v) :: rest, h => by
      have hk := h (k, v) (List.mem_cons_self _ _)
      have hrest := attrRemoveDiffs_eq_nil tag p m2 rest
        (fun kv hkv => h kv (List.mem_cons_of_mem _ hkv))
      simp [attrRemoveDiffs, hk, hrest]

theorem attrAddModifyDiffs_self (tag p : String) (attrs : List (String × String)) :
    attrAddModifyDiffs tag p (toMap attrs) (toMap attrs) = [] :=
  attrAddModifyDiffs_eq_nil tag p _ _
    (fun kv hkv => lookup_eq_of_mem_pairwise _ (toMap_pairwise attrs) kv hkv)

theorem attrRemoveDiffs_self (tag p : String) (attrs : List (String × String)) :
    attrRemoveDiffs tag p (toMap attrs) (toMap attrs) = [] :=
  attrRemoveDiffs_eq_nil tag p _ _ (fun kv hkv => lookup_isSome_of_mem _ kv hkv)

mutual
theorem esd_self (t : DomNode) (p : String) : extractStructuralDifferences t t p = [] := by
  cases t with
  | element tag attrs cs =>
      have hcs := childDiffs_self tag p cs 0
      simp [extractStructuralDifferences, DomNode.nodeType,
        attrAddModifyDiffs_self, attrRemoveDiffs_self, hcs]
  | text s =>
      simp [extractStructuralDifferences, DomNode.nodeType]
  | other c n s =>
      simp only [extractStructuralDifferences, DomNode.nodeType]
      split
      · simp_all
      · split
        · simp
        · rfl
termination_by sizeOf t
theorem childDiffs_self (tag p : String) (l : NodeList) (i : Nat) :
    childDiffs tag p l l i = [] := by
  cases l with
  | nil => rfl
  | cons c rest =>
      have h1 := esd_self c (p ++ "/" ++ tag ++ "[" ++ toString i ++ "]")
      have h2 := childDiffs_self tag p rest (i + 1)
      simp [childDiffs, h1, h2]
termination_by sizeOf l
end

/-! Non-emptiness of rendered summary lines. -/

theorem append_ne_empty_left (s t : String) (h : s ≠ "") : s ++ t ≠ "" := by
  intro he
  apply h
  have hd := congrArg String.data he
  rw [String.data_append] at hd
  have hnil : ("" : String).data = [] := rfl
  rw [hnil] at hd
  rcases List.append_eq_nil.mp hd with ⟨h1, _⟩
  exact String.ext (by rw [h1, hnil])

theorem renderDiffLine_ne_empty (d : SimpleDiff) : renderDiffLine d ≠ "" := by
  unfold renderDiffLine
  repeat' split
  all_goals repeat apply append_ne_empty_left
  all_goals decide

/-! Soundness of record paths with respect to the path grammar `pathsOf`. -/

theorem attrAddModifyDiffs_path (tag p : String) (m1 : List (String × String)) :
    ∀ m2, ∀ d ∈ attrAddModifyDiffs tag p m1 m2, d.path = some p
  | [], d, hd => absurd hd (List.not_mem_nil d)
  | (k, v) :: rest, d, hd => by
      simp only [attrAddModifyDiffs] at hd
      rw [List.mem_append] at hd
      rcases hd with h | h
      · rcases hlk : m1.lookup k with _ | v1
        · simp only [hlk] at h
          simp only [List.mem_singleton] at h
          subst h
          rfl
        · simp only [hlk] at h
          split at h
          · simp only [List.mem_singleton] at h
            subst h
            rfl
          · cases h
      · exact attrAddModifyDiffs_path tag p m1 rest d h

theorem attrRemoveDiffs_path (tag p : String) (m2 : List (String × String)) :
    ∀ m1, ∀ d ∈ attrRemoveDiffs tag p m2 m1, d.path = some p
  | [], d, hd => absurd hd (List.not_mem_nil d)
  | (k, v) :: rest, d, hd => by
      simp only [attrRemoveDiffs] at hd
      rw [List.mem_append] at hd
      rcases hd with h | h
      · split at h
        · cases h
        · simp only [List.mem_singleton] at h
          subst h
          rfl
      · exact attrRemoveDiffs_path tag p m2 rest d h

theorem addedDiffs_path (tag p : String) :
    ∀ (l : NodeList) (i : Nat), ∀ d ∈ addedDiffs tag p l i,
      ∃ q, d.path = some q ∧ q ∈ slotPaths tag p l i
  | .nil, _, d, hd => absurd hd (by simp [addedDiffs])
  | .cons c rest, i, d, hd => by
      simp only [addedDiffs] at hd
      rcases List.mem_cons.mp hd with h | h
      · subst h
        exact ⟨_, rfl, by simp [slotPaths]⟩
      · obtain ⟨q, hq, hm⟩ := addedDiffs_path tag p rest (i + 1) d h
        exact ⟨q, hq, by simp only [slotPaths]; exact List.mem_cons_of_mem _ hm⟩

theorem removedDiffs_path (tag p : String) :
    ∀ (l : NodeList) (i : Nat), ∀ d ∈ removedDiffs tag p l i,
      ∃ q, d.path = some q ∧ q ∈ slotPaths tag p l i
  | .nil, _, d, hd => absurd hd (by simp [removedDiffs])
  | .cons c rest, i, d, hd => by
      simp only [removedDiffs] at hd
      rcases List.mem_cons.mp hd with h | h
      · subst h
        exact ⟨_, rfl, by simp [slotPaths]⟩
      · obtain ⟨q, hq, hm⟩ := removedDiffs_path tag p rest (i + 1) d h
        exact ⟨q, hq, by simp only [slotPaths]; exact List.mem_cons_of_mem _ hm⟩

/-- The root path is always among the well-formed paths. -/
theorem self_mem_pathsOf (n1 n2 : DomNode) (p : String) : p ∈ pathsOf n1 n2 p := by
  cases n1 <;> cases n2 <;> simp [pathsOf]

/-- Every record produced at one node either sits at the current path or
comes out of the child loop of a pair of elements. -/
theorem esd_path_flat (n1 n2 : DomNode) (p : String) :
    ∀ d ∈ extractStructuralDifferences n1 n2 p,
      d.path = some p ∨ ∃ t1 a1 cs1 t2 a2 cs2,
        n1 = DomNode.element t1 a1 cs1 ∧ n2 = DomNode.element t2 a2 cs2 ∧
        d ∈ childDiffs t1 p cs1 cs2 0 := by
  intro d hd
  rw [extractStructuralDifferences.eq_def] at hd
  split at hd
  · simp only [List.mem_singleton] at hd
    subst hd
    exact Or.inl rfl
  · split at hd
    · dsimp only at hd
      split at hd
      · simp only [List.mem_singleton] at hd
        subst hd
        exact Or.inl rfl
      · cases hd
    · split at hd
      · split at hd
        · simp only [List.mem_singleton] at hd
          subst hd
          exact Or.inl rfl
        · rw [List.mem_append] at hd
          rcases hd with hd | hd
          · rw [List.mem_append] at hd
            rcases hd with hd | hd
            · exact Or.inl (attrAddModifyDiffs_path _ _ _ _ d hd)
            · exact Or.inl (attrRemoveDiffs_path _ _ _ _ d hd)
          · exact Or.inr ⟨_, _, _, _, _, _, rfl, rfl, hd⟩
      · cases hd

mutual
theorem esd_path_mem (n1 n2 : DomNode) (p : String) :
    ∀ d ∈ extractStructuralDifferences n1 n2 p,
      ∃ q, d.path = some q ∧ q ∈ pathsOf n1 n2 p := by
  intro d hd
  rcases esd_path_flat n1 n2 p d hd with h | ⟨t1, a1, cs1, t2, a2, cs2, e1, e2, hmem⟩
  · exact ⟨p, h, self_mem_pathsOf n1 n2 p⟩
  · subst e1
    subst e2
    obtain ⟨q, hq, hm⟩ := childDiffs_path_mem t1 p cs1 cs2 0 d hmem
    exact ⟨q, hq, by simp only [pathsOf]; exact List.mem_cons_of_mem _ hm⟩
termination_by sizeOf n1
theorem childDiffs_path_mem (tag p : String) (l1 l2 : NodeList) (i : Nat) :
    ∀ d ∈ childDiffs tag p l1 l2 i,
      ∃ q, d.path = some q ∧ q ∈ pathsBelow tag p l1 l2 i := by
  intro d hd
  cases l1 with
  | nil =>
      simp only [childDiffs] at hd
      obtain ⟨q, hq, hm⟩ := addedDiffs_path tag p l2 i d hd
      exact ⟨q, hq, by simp only [pathsBelow]; exact hm⟩
  | cons c1 rest1 =>
      cases l2 with
      | nil =>
          simp only [childDiffs] at hd
          obtain ⟨q, hq, hm⟩ := removedDiffs_path tag p (.cons c1 rest1) i d hd
          exact ⟨q, hq, by simp only [pathsBelow]; exact hm⟩
      | cons c2 rest2 =>
          simp only [childDiffs] at hd
          rw [List.mem_append] at hd
          rcases hd with hd | hd
          · obtain ⟨q, hq, hm⟩ :=
              esd_path_mem c1 c2 (p ++ "/" ++ tag ++ "[" ++ toString i ++ "]") d hd
            exact ⟨q, hq, by simp only [pathsBelow]; exact List.mem_append_left _ hm⟩
          · obtain ⟨q, hq, hm⟩ := childDiffs_path_mem tag p rest1 rest2 (i + 1) d hd
            exact ⟨q, hq, by simp only [pathsBelow]; exact List.mem_append_right _ hm⟩
termination_by sizeOf l1
end

/-! The claims. -/

/-- Claim C1: for A = `<ul><li>X</li><li>Y</li></ul>` and
B = `<ul><li>NEW</li><li>X</li><li>Y</li></ul>`, the comparison of the two
body roots aligns children strictly by position: it reports the index-0
`<li>` slot as a text modification `X` to `NEW`, the index-1 slot as a
text modification `Y` to `X`, and a trailing `addElement` for the
shifted-in last `<li>` — not a single clean insertion of one `<li>`. -/
theorem c1_positional_artifact :
    extractStructuralDifferences listBodyA listBodyB "" =
      [{ action := "modifyTextElement", path := some "/BODY[0]/UL[0]/LI[0]",
         oldValue := some "X", newValue := some "NEW" },
       { action := "modifyTextElement", path := some "/BODY[0]/UL[1]/LI[0]",
         oldValue := some "Y", newValue := some "X" },
       { action := "addElement", element := some "LI", path := some "/BODY[0]/UL[2]",
         content := some "Y" }] := by decide

/-- Claim C2, counterexample: the claim says the index in each `TAG[i]`
path segment is the 1-based position of the affected node among its
parent's children in tree A. Comparing `<p>a</p>` against `<p>b</p>`
(both `<p>` elements being the first child of `<body>`, and the text
being the first child of `<p>`), the single emitted record carries the
path `/BODY[0]/P[0]`, not the 1-based `/BODY[1]/P[1]` the claim
requires. -/
theorem c2_counterexample :
    (extractStructuralDifferences paraBodyA paraBodyB "").map (fun d => d.path) =
      [some "/BODY[0]/P[0]"] ∧
    ¬ (extractStructuralDifferences paraBodyA paraBodyB "").map (fun d => d.path) =
      [some "/BODY[1]/P[1]"] := by decide

/-- Claim C2 (amended): every emitted record carries a path, and that
path conforms to the grammar `pathsOf`: the root path (the empty string
at the top-level call) at the compared pair itself, or the root path
extended level by level with `/TAG[i]` segments in which `TAG` is the
tree-A parent's tag and `i` is the 0-based slot index of the affected
child among its parent's children. -/
theorem c2_path_form (n1 n2 : DomNode) (p : String) :
    ∀ d ∈ extractStructuralDifferences n1 n2 p,
      ∃ q, d.path = some q ∧ q ∈ pathsOf n1 n2 p :=
  esd_path_mem n1 n2 p

/-- Witness for the amended C2 at a concrete input. -/
theorem c2_path_form_witness :
    ∃ q, ({ action := "modifyTextElement", path := some "/BODY[0]/P[0]",
            oldValue := some "a", newValue := some "b" } : SimpleDiff).path = some q ∧
      q ∈ pathsOf paraBodyA paraBodyB "" :=
  c2_path_form paraBodyA paraBodyB "" _ (by decide)

/-- Claim C3: for body roots parsed from `<body><h1>Title</h1></body>`
and `<body><h1>Title</h1><p>New paragraph</p></body>`, `extractDiff`
produces exactly one record: an `addElement` with element `P`, content
`New paragraph`, and path `/BODY[1]`. -/
theorem c3_end_to_end :
    (extractDiff titleBodyA titleBodyB).diffs =
      [{ action := "addElement", element := some "P", path := some "/BODY[1]",
         content := some "New paragraph" }] ∧
    (extractDiff titleBodyA titleBodyB).count = 1 := by decide

/-- Claim C4: identity — comparing any tree against an identical copy of
itself from the root path produces zero records. -/
theorem c4_identity (t : DomNode) : extractStructuralDifferences t t "" = [] :=
  esd_self t ""

/-- Claim C5: for every pair of inputs, `count` equals the length of
`diffs`, and the summary is exactly the newline-join of one non-empty
rendered line per record, in record order. -/
theorem c5_count_consistency (b1 b2 : DomNode) :
    (extractDiff b1 b2).count = (extractDiff b1 b2).diffs.length ∧
    (extractDiff b1 b2).summary =
      String.intercalate "\n" ((extractDiff b1 b2).diffs.map renderDiffLine) ∧
    ∀ d ∈ (extractDiff b1 b2).diffs, renderDiffLine d ≠ "" :=
  ⟨rfl, rfl, fun d _ => renderDiffLine_ne_empty d⟩

/-- Witness for C5 at a concrete input. -/
theorem c5_count_consistency_witness :
    renderDiffLine { action := "modifyTextElement", path := some "",
                     oldValue := some "a", newValue := some "b" } ≠ "" :=
  (c5_count_consistency (.text "a") (.text "b")).2.2 _ (by decide)

/-- Claim C6: comparing text node `Hello` against `Hello there` yields
exactly one `modifyTextElement` record with the two trimmed strings; and
whenever either side of a text/text comparison trims to the empty
string, no record at all is emitted. -/
theorem c6_text_modification :
    (extractStructuralDifferences (.text "Hello") (.text "Hello there") "" =
      [{ action := "modifyTextElement", path := some "",
         oldValue := some "Hello", newValue := some "Hello there" }]) ∧
    ∀ (s1 s2 p : String), jsTrim s1 = "" ∨ jsTrim s2 = "" →
      extractStructuralDifferences (.text s1) (.text s2) p = [] := by
  constructor
  · decide
  · intro s1 s2 p h
    rw [extractStructuralDifferences.eq_def]
    simp only [DomNode.nodeType, DomNode.textContent]
    have hcond : ¬(jsTrim s1 ≠ jsTrim s2 ∧ jsTrim s1 ≠ "" ∧ jsTrim s2 ≠ "") := by
      rintro ⟨-, h2, h3⟩
      rcases h with h | h
      · exact h2 h
      · exact h3 h
    simp [hcond]

/-- Witness for the general part of C6 at a concrete input. -/
theorem c6_text_modification_witness :
    extractStructuralDifferences (.text "Hello") (.text " ") "" = [] :=
  c6_text_modification.2 "Hello" " " "" (Or.inr (by decide))

/-- Claim C7: whenever the two compared nodes have different DOM node
types, the comparison emits exactly one `replaceNode` record at the
current path, carrying the `nodeName` of node A and of node B as old and new value
(the name that identifies the node kind, e.g. `#text`), and nothing
below that pair is compared. -/
theorem c7_kind_mismatch (n1 n2 : DomNode) (p : String)
    (h : n1.nodeType ≠ n2.nodeType) :
    extractStructuralDifferences n1 n2 p =
      [{ action := "replaceNode", path := some p,
         oldValue := some n1.nodeName, newValue := some n2.nodeName }] := by
  rw [extractStructuralDifferences.eq_def]
  rw [if_pos h]

/-- Witness for C7 at a concrete input. -/
theorem c7_kind_mismatch_witness :
    extractStructuralDifferences (.text "x") (.element "DIV" [] .nil) "" =
      [{ action := "replaceNode", path := some "",
         oldValue := some "#text", newValue := some "DIV" }] :=
  c7_kind_mismatch (.text "x") (.element "DIV" [] .nil) "" (by decide)

/-- Claim C8: attribute symmetry — comparing `<a href="/x">` against
`<a href="/x" target="_blank">` yields exactly one `addAttribute` record
with content `target="_blank"`; swapping the inputs yields exactly one
`removeAttribute` record with the same content. -/
theorem c8_attribute_symmetry :
    extractStructuralDifferences anchorPlain anchorTarget "" =
      [{ action := "addAttribute", element := some "A", path := some "",
         content := some "target=\"_blank\"" }] ∧
    extractStructuralDifferences anchorTarget anchorPlain "" =
      [{ action := "removeAttribute", element := some "A", path := some "",
         content := some "target=\"_blank\"" }] := by decide

/-- Claim C9: a record whose action is not one of the eight recognized
values renders as an explicit unknown-action line instead of being
dropped or crashing the formatter, and the summary always renders
exactly one line per record, in record order. -/
theorem c9_unknown_action :
    (∀ d : SimpleDiff, d.action ∉ knownActions →
      renderDiffLine d = "? Unknown action: " ++ d.action) ∧
    ∀ ds : List SimpleDiff,
      generateDiffSummary ds = String.intercalate "\n" (ds.map renderDiffLine) ∧
      (ds.map renderDiffLine).length = ds.length := by
  constructor
  · intro d h
    simp only [knownActions, List.mem_cons, List.not_mem_nil, or_false, not_or] at h
    obtain ⟨h1, h2, h3, h4, h5, h6, h7, h8⟩ := h
    unfold renderDiffLine
    rw [if_neg h1, if_neg h2, if_neg h3, if_neg h4, if_neg h5, if_neg h6, if_neg h7,
      if_neg h8]
  · intro ds
    exact ⟨rfl, List.length_map ds renderDiffLine⟩

/-- Witness for C9 at a concrete record. -/
theorem c9_unknown_action_witness :
    renderDiffLine { action := "mysteryAction" } = "? Unknown action: " ++ "mysteryAction" :=
  c9_unknown_action.1 { action := "mysteryAction" } (by decide)

/-- Claim C10: the rendered line of a `modifyTextElement`,
`addAttribute`, `removeAttribute` or `modifyAttribute` record does not
depend on the path field of the record at all, while the added/removed-child
templates and the two replace templates do append ` at <path>`. -/
theorem c10_no_path_in_text_attr_lines :
    (∀ d : SimpleDiff,
      d.action ∈ ["modifyTextElement", "addAttribute", "removeAttribute", "modifyAttribute"] →
      ∀ q : Option String, renderDiffLine { d with path := q } = renderDiffLine d) ∧
    (∀ d : SimpleDiff,
      d.action ∈ ["addElement", "removeElement", "replaceElement", "replaceNode"] →
      ∃ pre : String, renderDiffLine d = pre ++ " at " ++ optStr d.path) := by
  constructor
  · rintro ⟨a, e, c, o, n, pth⟩ h q
    simp only [List.mem_cons, List.not_mem_nil, or_false] at h
    rcases h with h | h | h | h <;> subst h <;> rfl
  · rintro ⟨a, e, c, o, n, pth⟩ h
    simp only [List.mem_cons, List.not_mem_nil, or_false] at h
    rcases h with h | h | h | h <;> subst h
    · exact ⟨_, rfl⟩
    · exact ⟨_, rfl⟩
    · exact ⟨_, rfl⟩
    · exact ⟨_, rfl⟩

/-- Witness for C10 at concrete records. -/
theorem c10_no_path_witness :
    renderDiffLine { action := "modifyTextElement", oldValue := some "X",
                     newValue := some "NEW", path := some "/BODY[0]/UL[0]/LI[0]" } =
      renderDiffLine { action := "modifyTextElement", oldValue := some "X",
                       newValue := some "NEW" } ∧
    ∃ pre, renderDiffLine { action := "replaceNode", oldValue := some "#text",
                            newValue := some "DIV", path := some "/BODY[0]" } =
      pre ++ " at " ++ optStr (some "/BODY[0]") :=
  ⟨c10_no_path_in_text_attr_lines.1
      { action := "modifyTextElement", oldValue := some "X", newValue := some "NEW" }
      (by decide) (some "/BODY[0]/UL[0]/LI[0]"),
    c10_no_path_in_text_attr_lines.2
      { action := "replaceNode", oldValue := some "#text", newValue := some "DIV",
        path := some "/BODY[0]" } (by decide)⟩

end UIDiff
